import Mathlib

/-!
# Smart pagination engine of the Markdown→PDF converter

A shallow embedding of the pagination / layout-fitting stage of
`convertHtmlToPdf` (the HTML→PDF conversion script): heading grouping,
the break-decision heuristics, the first-content-H1 break, the blanket
H2 break pass, the diagram fit-scaler, and the image wrapping pass,
together with the page-break configuration parsing.

JavaScript numbers are modelled as exact rationals (`ℚ`); the claims
settled here do not hinge on float rounding.  The DOM is modelled as a
flat list of block-level items, matching the structure the script
actually operates on (headings, content blocks and marker divs are all
siblings in the rendered body; the only nesting the pagination stage
creates is the `heading-group` wrapper and the `image-container`
wrapper, which the item type represents explicitly).
-/

/-- JS truncation toward zero of a rational (`Math.trunc` / the rounding
used by the `%` operator). -/
def rtrunc (q : ℚ) : ℤ := if 0 ≤ q then ⌊q⌋ else ⌈q⌉

/-- The JavaScript `%` operator on numbers: remainder with the sign of
the dividend, `a % b = a - b * trunc(a / b)`. -/
def jsMod (a b : ℚ) : ℚ := a - b * rtrunc (a / b)

/-- `mm → px` conversion factor at 96 DPI used throughout the script
(the literal `3.7795275591`). -/
def pxPerMm : ℚ := 37795275591 / 10000000000

/-- `PAGE_HEIGHT - MARGIN_TOP - MARGIN_BOTTOM` with `PAGE_HEIGHT = 297 *
3.7795275591` and both margins `0` (source lines 859–862). -/
def usablePageHeight : ℚ := 297 * pxPerMm - 0 - 0

/-- `pageOffset = groupTop % USABLE_PAGE_HEIGHT` (source line 912). -/
def pageOffsetOf (top : ℚ) : ℚ := jsMod top usablePageHeight

/-- `remainingSpace = USABLE_PAGE_HEIGHT - pageOffset` (source line 913). -/
def remainingOf (top : ℚ) : ℚ := usablePageHeight - pageOffsetOf top

/-- The five numeric thresholds plus the debug flag received by the
page-break `page.evaluate` block (source lines 864–870). -/
structure PageBreakConfig where
  minRemainingSpace : ℚ
  largeContentThreshold : ℚ
  headingMinSpace : ℚ
  forceBreakOffset : ℚ
  overflowTolerance : ℚ
  debug : Bool
deriving DecidableEq, Repr

/-- The default configuration (all env vars unset: 100 / 900 / 80 / 150
/ 50 / false, source lines 845–852). -/
def defaultConfig : PageBreakConfig :=
  { minRemainingSpace := 100
    largeContentThreshold := 900
    headingMinSpace := 80
    forceBreakOffset := 150
    overflowTolerance := 50
    debug := false }

/-- The `reason` string recorded by the break-decision engine.
`noReason` is the initial `''`; note the source assigns
`'large content'` in rule 1 even when it decides not to break. -/
inductive Reason where
  | noReason | largeContent | contentTooLarge | headingAtBottom | severeSplit
deriving DecidableEq, Repr

/-- Result of the decision block: `needsPageBreak` and `reason`
(source lines 916–917). -/
structure Decision where
  brk : Bool
  reason : Reason
deriving DecidableEq, Repr

/-- The break-decision engine for one heading group, source lines
908–942: measure `(top, height)`, derive `pageOffset` and
`remainingSpace`, then run the four strategies as an `if / else if`
chain. -/
def decideBreak (cfg : PageBreakConfig) (height top : ℚ) : Decision :=
  if cfg.largeContentThreshold < height then
    -- 策略 1: needsPageBreak = pageOffset > FORCE_BREAK_OFFSET
    ⟨decide (cfg.forceBreakOffset < pageOffsetOf top), .largeContent⟩
  else if remainingOf top < height then
    -- 策略 2: break only when the overflow exceeds the tolerance
    if cfg.overflowTolerance < height - remainingOf top then
      ⟨true, .contentTooLarge⟩
    else
      ⟨false, .noReason⟩
  else if remainingOf top < cfg.headingMinSpace then
    -- 策略 3: heading at the bottom of the page
    ⟨true, .headingAtBottom⟩
  else if 400 < height ∧ remainingOf top * (85 / 100) < height then
    -- 策略 4: content would be severely split
    ⟨true, .severeSplit⟩
  else
    ⟨false, .noReason⟩

/-! ## Configuration parsing (source lines 844–852)

`parseInt(process.env.X || 'default')`: the `||` falls back to the
default string only when the variable is unset or empty (falsy); the
result then goes through JavaScript `parseInt`, which yields `NaN`
(modelled as `none`) when the string has no leading integer literal. -/

/-- Whitespace skipped by `parseInt`. -/
def isJsWs (c : Char) : Bool :=
  c = ' ' ∨ c = '\t' ∨ c = '\n' ∨ c = '\r' ∨ c = '\x0b' ∨ c = '\x0c'

/-- Hexadecimal digit value, if any. -/
def hexVal (c : Char) : Option ℕ :=
  if c.isDigit then some (c.toNat - 48)
  else if 'a' ≤ c ∧ c ≤ 'f' then some (c.toNat - 87)
  else if 'A' ≤ c ∧ c ≤ 'F' then some (c.toNat - 55)
  else none

/-- Fold a list of digit values in base `b`. -/
def digitsToNat (b : ℕ) (l : List ℕ) : ℕ := l.foldl (fun a d => a * b + d) 0

/-- JavaScript `parseInt(s)` (radix unspecified): skip leading
whitespace, optional sign, an optional `0x`/`0X` hex prefix, then the
longest digit prefix; no digits ⇒ `NaN` (`none`). -/
def jsParseInt (s : String) : Option ℤ :=
  let l := s.toList.dropWhile isJsWs
  let (sign, l) : ℤ × List Char :=
    match l with
    | '-' :: rest => (-1, rest)
    | '+' :: rest => (1, rest)
    | _ => (1, l)
  match l with
  | '0' :: 'x' :: rest =>
      let ds := (rest.takeWhile (fun c => (hexVal c).isSome)).filterMap hexVal
      if ds.isEmpty then none else some (sign * digitsToNat 16 ds)
  | '0' :: 'X' :: rest =>
      let ds := (rest.takeWhile (fun c => (hexVal c).isSome)).filterMap hexVal
      if ds.isEmpty then none else some (sign * digitsToNat 16 ds)
  | _ =>
      let ds := (l.takeWhile Char.isDigit).map (fun c => c.toNat - 48)
      if ds.isEmpty then none else some (sign * digitsToNat 10 ds)

/-- JavaScript `v || dflt` for an environment variable: `undefined`
(`none`) and the empty string are falsy. -/
def jsFalsyOr (v : Option String) (dflt : String) : String :=
  match v with
  | none => dflt
  | some s => if s = "" then dflt else s

/-- The environment variables read when building the page-break
configuration. -/
structure Env where
  pbMinRemaining : Option String
  pbLargeContent : Option String
  pbHeadingMin : Option String
  pbForceOffset : Option String
  pbOverflowTolerance : Option String
  pbDebug : Option String
deriving DecidableEq, Repr

/-- The numeric fields of the constructed configuration, before being
handed to the renderer: `none` models JavaScript `NaN` (the result of
`parseInt` on a string without a leading integer). -/
structure RawPageBreakConfig where
  minRemainingSpace : Option ℤ
  largeContentThreshold : Option ℤ
  headingMinSpace : Option ℤ
  forceBreakOffset : Option ℤ
  overflowTolerance : Option ℤ
  debug : Bool
deriving DecidableEq, Repr

/-- `pageBreakConfig` construction, source lines 845–852. -/
def mkPageBreakConfig (e : Env) : RawPageBreakConfig :=
  { minRemainingSpace := jsParseInt (jsFalsyOr e.pbMinRemaining "100")
    largeContentThreshold := jsParseInt (jsFalsyOr e.pbLargeContent "900")
    headingMinSpace := jsParseInt (jsFalsyOr e.pbHeadingMin "80")
    forceBreakOffset := jsParseInt (jsFalsyOr e.pbForceOffset "150")
    overflowTolerance := jsParseInt (jsFalsyOr e.pbOverflowTolerance "50")
    debug := e.pbDebug = some "true" }

/-- The environment with every page-break variable unset. -/
def emptyEnv : Env := ⟨none, none, none, none, none, none⟩

/-! ## The DOM model

The pagination stage operates on the flat sequence of block-level
elements of the rendered body.  A `Tag` is the classification the
script makes by tag name / class; `mermaid` carries the rendered SVG's
`getBBox()` size (immutable) and the explicitly set display size, if
any (the fit-scaler's `width` / `height` attributes).  The table of
contents is one opaque `toc` item: it contains one `h1` (inside
`.table-of-contents`, hence skipped by the first-content-H1 pass) and
no groupable heading-successor pairs (its `h1` is followed by a `nav`).
-/

inductive Tag where
  | h1 | h2 | h3 | h4 | h5 | h6
  | mermaid (w h : ℚ) (disp : Option (ℚ × ℚ))
  | pre | img | table | blockquote | para
deriving DecidableEq, Repr

/-- `h1 … h6`, the selector of the grouping pass. -/
def isHeading : Tag → Bool
  | .h1 | .h2 | .h3 | .h4 | .h5 | .h6 => true
  | _ => false

/-- `nextElement.classList.contains('mermaid') || tagName ∈
{PRE, IMG, TABLE, BLOCKQUOTE}` (source lines 885–891). -/
def atomic : Tag → Bool
  | .mermaid _ _ _ | .pre | .img | .table | .blockquote => true
  | _ => false

/-- The content slot of a `heading-group` wrapper: either the plain
atomic element, or that element already wrapped in an
`image-container` (with its two possible marker classes) by the image
pass. -/
inductive Content where
  | plain (t : Tag)
  | wrapped (brk : Bool) (large : Bool)
deriving DecidableEq, Repr

/-- One top-level element of the body. -/
inductive Item where
  /-- an ordinary block-level element -/
  | node (t : Tag)
  /-- a `div.h2-page-break` marker -/
  | brkDiv
  /-- the `div.table-of-contents` block -/
  | toc
  /-- a `div.heading-group` wrapper: `brk` is the
  `force-page-break-before` class, `inner` counts `h2-page-break`
  divs inserted inside the wrapper before the heading -/
  | group (brk : Bool) (inner : ℕ) (h : Tag) (c : Content)
  /-- a `div.image-container` wrapper around an `img` -/
  | imgWrap (brk : Bool) (large : Bool)
deriving DecidableEq, Repr

/-! ## Heading-Grouping Pass with per-group break decision
(source lines 856–968)

The script iterates the snapshot of all headings in document order,
skips any heading whose parent already has class `heading-group`,
wraps a heading whose next element sibling is atomic, measures the
fresh wrapper, and runs the break-decision engine on it.  Geometry is
supplied by the renderer; the embedding receives it as an oracle
`g : ℕ → ℚ × ℚ` mapping the index of each created group (in creation
order) to the wrapper's `(top, height)`. -/

/-- Create the wrapper for one group: measure it via the oracle and
decide the break (source lines 892–953). -/
def mkGroup (g : ℕ → ℚ × ℚ) (cfg : PageBreakConfig) (n : ℕ) (t c : Tag) : Item :=
  .group (decideBreak cfg (g n).2 (g n).1).brk 0 t (.plain c)

/-- One left-to-right traversal of the body.  A heading inside a
`heading-group` is not an `Item.node`, so it is skipped exactly as the
parent-class check does; a heading whose next sibling is a wrapper div
(group, toc, image container, break marker) has no atomic
`nextElementSibling` and stays solo. -/
def groupGo (g : ℕ → ℚ × ℚ) (cfg : PageBreakConfig) : ℕ → List Item → List Item
  | _, [] => []
  | n, .node t :: .node c :: rest' =>
    if isHeading t ∧ atomic c then
      mkGroup g cfg n t c :: groupGo g cfg (n + 1) rest'
    else
      .node t :: groupGo g cfg n (.node c :: rest')
  | n, .node t :: rest => .node t :: groupGo g cfg n rest
  | n, x :: rest => x :: groupGo g cfg n rest
termination_by _ l => l.length
decreasing_by all_goals simp <;> omega

/-- The whole grouping pass. -/
def groupStage (g : ℕ → ℚ × ℚ) (cfg : PageBreakConfig) (doc : List Item) : List Item :=
  groupGo g cfg 0 doc

/-! ## First-content-H1 break (source lines 970–988) -/

/-- Number of `h1` elements `querySelectorAll('h1')` finds: deep, so
the TOC's own `h1` and headings inside `heading-group` wrappers
count. -/
def h1Count (doc : List Item) : ℕ :=
  (doc.map fun item =>
    match item with
    | .node .h1 => 1
    | .toc => 1
    | .group _ _ .h1 _ => 1
    | _ => 0).sum

/-- Insert one `h2-page-break` before the first `h1` that is not
inside `.table-of-contents`, then stop.  When that `h1` sits inside a
`heading-group` wrapper, `h1.parentNode.insertBefore` places the
marker inside the wrapper. -/
def insertBeforeFirstContentH1 : List Item → List Item
  | [] => []
  | .node .h1 :: rest => .brkDiv :: .node .h1 :: rest
  | .group b i .h1 c :: rest => .group b (i + 1) .h1 c :: rest
  | x :: rest => x :: insertBeforeFirstContentH1 rest

/-- The pass only acts when the document has more than one `h1`
overall (source line 973). -/
def h1Stage (doc : List Item) : List Item :=
  if 1 < h1Count doc then insertBeforeFirstContentH1 doc else doc

/-! ## Blanket H2 break pass (source lines 990–1016)

`querySelectorAll('h2')` is a deep snapshot in document order;
`index` is the position in that snapshot, `prevElement` the element
sibling immediately before the `h2`.  For an `h2` inside a
`heading-group` the previous sibling is `null` (or an earlier inserted
marker div) — never an `H1`. -/

/-- Left-to-right traversal with `p` = "previous top-level element
sibling is an `h1`" and `k` = number of `h2`s already seen. -/
def h2Insert : Bool → ℕ → List Item → List Item
  | _, _, [] => []
  | p, k, .node t :: rest =>
    if t = .h2 then
      (if k = 0 ∨ p then [Item.node t] else [.brkDiv, .node t])
        ++ h2Insert false (k + 1) rest
    else
      .node t :: h2Insert (t = .h1) k rest
  | _, k, .group b i h c :: rest =>
    if h = .h2 then
      .group b (if k = 0 then i else i + 1) h c :: h2Insert false (k + 1) rest
    else
      .group b i h c :: h2Insert false k rest
  | _, k, x :: rest => x :: h2Insert false k rest

/-- The pass, guarded by `PAGE_BREAK_FORCE_H2 !== 'false'`. -/
def h2Stage (enabled : Bool) (doc : List Item) : List Item :=
  if enabled then h2Insert false 0 doc else doc

/-! ## Diagram Fit-Scaler (source lines 1018–1056) -/

/-- `maxWidth = 210 - 40` mm converted to px. -/
def maxWidthPx : ℚ := (210 - 40) * pxPerMm

/-- `maxHeight = 297 - 80` mm converted to px. -/
def maxHeightPx : ℚ := (297 - 80) * pxPerMm

/-- `scale = Math.min(scaleX, scaleY, 1)` (source lines 1038–1040). -/
def fitScale (w h : ℚ) : ℚ :=
  min (min (maxWidthPx / w) (maxHeightPx / h)) 1

/-- Scaling of one element: only a rendered mermaid SVG is touched, and
only when `scale < 1` (source lines 1042–1053); the explicit `width` /
`height` attributes become the uniformly scaled dimensions. -/
def scaleTag : Tag → Tag
  | .mermaid w h disp =>
    if fitScale w h < 1 then
      .mermaid w h (some (w * fitScale w h, h * fitScale w h))
    else
      .mermaid w h disp
  | t => t

/-- `querySelectorAll('.mermaid')` is deep: diagrams inside
`heading-group` wrappers are scaled too. -/
def scaleStage (doc : List Item) : List Item :=
  doc.map fun item =>
    match item with
    | .node t => .node (scaleTag t)
    | .group b i h (.plain t) => .group b i (scaleTag h) (.plain (scaleTag t))
    | x => x

/-! ## Image wrapping pass (source lines 1059–1104)

Runs unconditionally (outside the mermaid-count guard).  Every `img`
not already inside an `image-container` is wrapped; the fresh
container is measured (oracle `g`, indexed by wrap order) and may get
`force-page-break-before` and/or `large-image`. -/

/-- `MAX_IMAGE_HEIGHT = PAGE_HEIGHT - MARGIN` with `MARGIN = 40 *
3.7795275591` (source lines 1061–1063); also the modulus of this
pass's own page-offset computation. -/
def maxImageHeight : ℚ := 297 * pxPerMm - 40 * pxPerMm

/-- The two marker decisions for one freshly wrapped image container
(source lines 1083–1098): `(force-page-break-before, large-image)`. -/
def imgDecide (top height : ℚ) : Bool × Bool :=
  (decide (maxImageHeight - jsMod top maxImageHeight < height
            ∧ height < maxImageHeight),
   decide (maxImageHeight < height))

/-- Left-to-right traversal wrapping unwrapped images, deep into
`heading-group` wrappers. -/
def imagesGo (g : ℕ → ℚ × ℚ) : ℕ → List Item → List Item
  | _, [] => []
  | n, .node t :: rest =>
    if t = .img then
      .imgWrap (imgDecide (g n).1 (g n).2).1 (imgDecide (g n).1 (g n).2).2
        :: imagesGo g (n + 1) rest
    else
      .node t :: imagesGo g n rest
  | n, .group b i h (.plain t) :: rest =>
    if t = .img then
      .group b i h (.wrapped (imgDecide (g n).1 (g n).2).1
                             (imgDecide (g n).1 (g n).2).2)
        :: imagesGo g (n + 1) rest
    else
      .group b i h (.plain t) :: imagesGo g n rest
  | n, x :: rest => x :: imagesGo g n rest

/-- The whole image pass. -/
def imagesStage (g : ℕ → ℚ × ℚ) (doc : List Item) : List Item :=
  imagesGo g 0 doc

/-! ## The pipeline (source lines 691–1104)

`mermaidCount` is `document.querySelectorAll('.mermaid').length`; the
grouping pass, the break decisions, the first-content-H1 break, the
blanket H2 breaks and the fit-scaler all live inside
`if (mermaidCount > 0) { … }`, while image wrapping runs afterwards
unconditionally. -/

/-- Deep count of `.mermaid` elements. -/
def mermaidCount (doc : List Item) : ℕ :=
  (doc.map fun item =>
    match item with
    | .node (.mermaid _ _ _) => 1
    | .group _ _ (.mermaid _ _ _) _ => 1
    | .group _ _ _ (.plain (.mermaid _ _ _)) => 1
    | _ => 0).sum

/-- The DOM-mutation pipeline of `convertHtmlToPdf`: smart pagination
(grouping → break decisions → first-H1 break → blanket H2 breaks →
diagram scaling) gated on the presence of mermaid diagrams, followed by
the unconditional image pass. -/
def processDoc (cfg : PageBreakConfig) (forceH2 : Bool)
    (gG gI : ℕ → ℚ × ℚ) (doc : List Item) : List Item :=
  let doc' :=
    if 0 < mermaidCount doc then
      scaleStage (h2Stage forceH2 (h1Stage (groupStage gG cfg doc)))
    else
      doc
  imagesStage gI doc'

/-- Specification-side restatement of the blanket H2 rule, written from
the claim's words for a flat document (a sequence of plain block
elements): every `h2` receives a forced page break marker immediately
before it, except the first `h2` of the document and except an `h2`
whose immediately preceding element is an `h1`.  `p` carries "the
previous element is an `h1`" and `k` the number of `h2`s already
seen. -/
def h2BlanketSpec : Bool → ℕ → List Tag → List Item
  | _, _, [] => []
  | p, k, t :: rest =>
    if t = Tag.h2 then
      (if k = 0 ∨ p then [Item.node t] else [Item.brkDiv, Item.node t])
        ++ h2BlanketSpec false (k + 1) rest
    else
      Item.node t :: h2BlanketSpec (decide (t = Tag.h1)) k rest

/-! ## Helper lemmas -/

/-- The JS remainder is strictly below a positive modulus. -/
theorem jsMod_lt (a b : ℚ) (hb : 0 < b) : jsMod a b < b := by
  have hbne : b ≠ 0 := ne_of_gt hb
  have haq : a / b * b = a := div_mul_cancel₀ a hbne
  rw [jsMod, rtrunc]
  split
  · have h1 : a / b - (⌊a / b⌋ : ℚ) < 1 := by
      have h2 := Int.fract_lt_one (a / b)
      rw [← Int.self_sub_floor] at h2
      exact h2
    nlinarith
  · have h2 : a / b ≤ (⌈a / b⌉ : ℚ) := Int.le_ceil _
    nlinarith

/-- The usable page height is positive. -/
theorem usablePageHeight_pos : 0 < usablePageHeight := by
  norm_num [usablePageHeight, pxPerMm]

/-- `remainingSpace` is always strictly positive, whatever the
element's document offset is. -/
theorem remainingOf_pos (top : ℚ) : 0 < remainingOf top := by
  have h := jsMod_lt top usablePageHeight usablePageHeight_pos
  rw [remainingOf, pageOffsetOf]
  linarith

/-! Equation-shaped lemmas for `groupGo`. -/

theorem groupGo_nil (g : ℕ → ℚ × ℚ) (cfg : PageBreakConfig) (n : ℕ) :
    groupGo g cfg n [] = [] := by
  simp [groupGo]

theorem groupGo_two (g : ℕ → ℚ × ℚ) (cfg : PageBreakConfig) (n : ℕ)
    (t c : Tag) (rest : List Item) :
    groupGo g cfg n (.node t :: .node c :: rest) =
      if isHeading t ∧ atomic c then
        mkGroup g cfg n t c :: groupGo g cfg (n + 1) rest
      else
        .node t :: groupGo g cfg n (.node c :: rest) := by
  simp [groupGo]

theorem groupGo_single (g : ℕ → ℚ × ℚ) (cfg : PageBreakConfig) (n : ℕ) (t : Tag) :
    groupGo g cfg n [.node t] = [.node t] := by
  simp [groupGo]

theorem groupGo_skip (g : ℕ → ℚ × ℚ) (cfg : PageBreakConfig) (n : ℕ)
    (x : Item) (rest : List Item) (hx : ∀ u, x ≠ Item.node u) :
    groupGo g cfg n (x :: rest) = x :: groupGo g cfg n rest := by
  cases x <;> first
    | exact absurd rfl (hx _)
    | simp [groupGo]

theorem groupGo_node_skip (g : ℕ → ℚ × ℚ) (cfg : PageBreakConfig) (n : ℕ)
    (t : Tag) (x : Item) (rest : List Item) (hx : ∀ u, x ≠ Item.node u) :
    groupGo g cfg n (.node t :: x :: rest) = .node t :: groupGo g cfg n (x :: rest) := by
  cases x <;> first
    | exact absurd rfl (hx _)
    | simp [groupGo]

/-- The first element of `groupGo` on a list starting with a plain node
is either that node (left intact) or a freshly created group. -/
theorem groupGo_cons_node_shape (g : ℕ → ℚ × ℚ) (cfg : PageBreakConfig) (n : ℕ)
    (c : Tag) (rest : List Item) :
    (∃ tail, groupGo g cfg n (.node c :: rest) = Item.node c :: tail) ∨
    (∃ b i h cc tail, groupGo g cfg n (.node c :: rest) = Item.group b i h cc :: tail) := by
  cases rest with
  | nil => exact Or.inl ⟨[], groupGo_single g cfg n c⟩
  | cons y rest' =>
    cases y with
    | node d =>
      rw [groupGo_two]
      by_cases hcond : isHeading c ∧ atomic d
      · rw [if_pos hcond]
        exact Or.inr ⟨(decideBreak cfg (g n).2 (g n).1).brk, 0, c, .plain d,
          groupGo g cfg (n + 1) rest', rfl⟩
      · rw [if_neg hcond]
        exact Or.inl ⟨_, rfl⟩
    | brkDiv => exact Or.inl ⟨_, groupGo_node_skip g cfg n c _ rest' (by simp)⟩
    | toc => exact Or.inl ⟨_, groupGo_node_skip g cfg n c _ rest' (by simp)⟩
    | group b i h cc => exact Or.inl ⟨_, groupGo_node_skip g cfg n c _ rest' (by simp)⟩
    | imgWrap b l => exact Or.inl ⟨_, groupGo_node_skip g cfg n c _ rest' (by simp)⟩

/-- A second grouping run is a no-op on a list starting with a non-node
item, given that it is a no-op on the tail. -/
theorem groupGo_idem_skip (g g' : ℕ → ℚ × ℚ) (cfg cfg' : PageBreakConfig)
    (n m : ℕ) (x : Item) (rest : List Item) (hx : ∀ u, x ≠ Item.node u)
    (ihrest : groupGo g' cfg' m (groupGo g cfg n rest) = groupGo g cfg n rest) :
    groupGo g' cfg' m (groupGo g cfg n (x :: rest)) = groupGo g cfg n (x :: rest) := by
  rw [groupGo_skip g cfg n x rest hx, groupGo_skip g' cfg' m x _ hx, ihrest]

/-- Same, for a node followed by a non-node item. -/
theorem groupGo_idem_node_skip (g g' : ℕ → ℚ × ℚ) (cfg cfg' : PageBreakConfig)
    (n m : ℕ) (t : Tag) (x : Item) (rest : List Item) (hx : ∀ u, x ≠ Item.node u)
    (ihrest : groupGo g' cfg' m (groupGo g cfg n rest) = groupGo g cfg n rest) :
    groupGo g' cfg' m (groupGo g cfg n (.node t :: x :: rest)) =
      groupGo g cfg n (.node t :: x :: rest) := by
  rw [groupGo_node_skip g cfg n t x rest hx, groupGo_skip g cfg n x rest hx,
    groupGo_node_skip g' cfg' m t x _ hx, groupGo_skip g' cfg' m x _ hx, ihrest]

/-- Core of the grouping-pass idempotence, by strong induction on the
document length: a second run (with any geometry and any
configuration) over an already-grouped document changes nothing. -/
theorem groupGo_idem_aux : ∀ (k : ℕ) (doc : List Item), doc.length < k →
    ∀ (g g' : ℕ → ℚ × ℚ) (cfg cfg' : PageBreakConfig) (n m : ℕ),
    groupGo g' cfg' m (groupGo g cfg n doc) = groupGo g cfg n doc := by
  intro k
  induction k with
  | zero => intro doc h; exact absurd h (Nat.not_lt_zero _)
  | succ k ih =>
    intro doc hlen g g' cfg cfg' n m
    cases doc with
    | nil => simp [groupGo]
    | cons x rest =>
      cases x with
      | node t =>
        cases rest with
        | nil => rw [groupGo_single, groupGo_single]
        | cons y rest' =>
          have hrest' : rest'.length < k := by
            simp only [List.length_cons] at hlen; omega
          cases y with
          | node c =>
            have hrest1 : (Item.node c :: rest').length < k := by
              simp only [List.length_cons] at hlen ⊢; omega
            rw [groupGo_two g cfg n t c rest']
            by_cases hcond : isHeading t ∧ atomic c
            · rw [if_pos hcond]
              rw [groupGo_skip g' cfg' m (mkGroup g cfg n t c) _ (by simp [mkGroup])]
              rw [ih rest' hrest' g g' cfg cfg' (n + 1) m]
            · rw [if_neg hcond]
              have hR := ih (Item.node c :: rest') hrest1 g g' cfg cfg' n m
              rcases groupGo_cons_node_shape g cfg n c rest' with
                ⟨tail, hsh⟩ | ⟨b, i, h, cc, tail, hsh⟩
              · rw [hsh] at hR ⊢
                rw [groupGo_two g' cfg' m t c tail, if_neg hcond, hR]
              · rw [hsh] at hR ⊢
                rw [groupGo_node_skip g' cfg' m t (Item.group b i h cc) tail (by simp), hR]
          | brkDiv =>
            exact groupGo_idem_node_skip g g' cfg cfg' n m t _ rest' (by simp)
              (ih rest' hrest' g g' cfg cfg' n m)
          | toc =>
            exact groupGo_idem_node_skip g g' cfg cfg' n m t _ rest' (by simp)
              (ih rest' hrest' g g' cfg cfg' n m)
          | group b i h cc =>
            exact groupGo_idem_node_skip g g' cfg cfg' n m t _ rest' (by simp)
              (ih rest' hrest' g g' cfg cfg' n m)
          | imgWrap b l =>
            exact groupGo_idem_node_skip g g' cfg cfg' n m t _ rest' (by simp)
              (ih rest' hrest' g g' cfg cfg' n m)
      | brkDiv =>
        exact groupGo_idem_skip g g' cfg cfg' n m _ rest (by simp)
          (ih rest (by simp only [List.length_cons] at hlen; omega) g g' cfg cfg' n m)
      | toc =>
        exact groupGo_idem_skip g g' cfg cfg' n m _ rest (by simp)
          (ih rest (by simp only [List.length_cons] at hlen; omega) g g' cfg cfg' n m)
      | group b i h cc =>
        exact groupGo_idem_skip g g' cfg cfg' n m _ rest (by simp)
          (ih rest (by simp only [List.length_cons] at hlen; omega) g g' cfg cfg' n m)
      | imgWrap b l =>
        exact groupGo_idem_skip g g' cfg cfg' n m _ rest (by simp)
          (ih rest (by simp only [List.length_cons] at hlen; omega) g g' cfg cfg' n m)

/-- The break decision never reads `minRemainingSpace` (the parsed
value is assigned to `MIN_REMAINING_SPACE` and then never consulted by
any rule). -/
theorem decideBreak_min (cfg : PageBreakConfig) (v : ℚ) :
    decideBreak { cfg with minRemainingSpace := v } = decideBreak cfg := rfl

/-- Neither does group creation. -/
theorem mkGroup_min (g : ℕ → ℚ × ℚ) (cfg : PageBreakConfig) (v : ℚ)
    (n : ℕ) (t c : Tag) :
    mkGroup g { cfg with minRemainingSpace := v } n t c = mkGroup g cfg n t c := rfl

/-- The grouping pass is insensitive to `minRemainingSpace`, by strong
induction on the document length. -/
theorem groupGo_min_aux : ∀ (k : ℕ) (doc : List Item), doc.length < k →
    ∀ (g : ℕ → ℚ × ℚ) (cfg : PageBreakConfig) (v : ℚ) (n : ℕ),
    groupGo g { cfg with minRemainingSpace := v } n doc = groupGo g cfg n doc := by
  intro k
  induction k with
  | zero => intro doc h; exact absurd h (Nat.not_lt_zero _)
  | succ k ih =>
    intro doc hlen g cfg v n
    cases doc with
    | nil => rw [groupGo_nil, groupGo_nil]
    | cons x rest =>
      cases x with
      | node t =>
        cases rest with
        | nil => rw [groupGo_single, groupGo_single]
        | cons y rest' =>
          have hrest' : rest'.length < k := by
            simp only [List.length_cons] at hlen; omega
          cases y with
          | node c =>
            have hrest1 : (Item.node c :: rest').length < k := by
              simp only [List.length_cons] at hlen ⊢; omega
            rw [groupGo_two, groupGo_two]
            by_cases hcond : isHeading t ∧ atomic c
            · rw [if_pos hcond, if_pos hcond, mkGroup_min,
                ih rest' hrest' g cfg v (n + 1)]
            · rw [if_neg hcond, if_neg hcond, ih (Item.node c :: rest') hrest1 g cfg v n]
          | brkDiv =>
            rw [groupGo_node_skip _ _ _ _ _ _ (by simp),
              groupGo_node_skip _ _ _ _ _ _ (by simp),
              groupGo_skip _ _ _ _ _ (by simp), groupGo_skip _ _ _ _ _ (by simp),
              ih rest' hrest' g cfg v n]
          | toc =>
            rw [groupGo_node_skip _ _ _ _ _ _ (by simp),
              groupGo_node_skip _ _ _ _ _ _ (by simp),
              groupGo_skip _ _ _ _ _ (by simp), groupGo_skip _ _ _ _ _ (by simp),
              ih rest' hrest' g cfg v n]
          | group b i h cc =>
            rw [groupGo_node_skip _ _ _ _ _ _ (by simp),
              groupGo_node_skip _ _ _ _ _ _ (by simp),
              groupGo_skip _ _ _ _ _ (by simp), groupGo_skip _ _ _ _ _ (by simp),
              ih rest' hrest' g cfg v n]
          | imgWrap b l =>
            rw [groupGo_node_skip _ _ _ _ _ _ (by simp),
              groupGo_node_skip _ _ _ _ _ _ (by simp),
              groupGo_skip _ _ _ _ _ (by simp), groupGo_skip _ _ _ _ _ (by simp),
              ih rest' hrest' g cfg v n]
      | brkDiv =>
        rw [groupGo_skip _ _ _ _ _ (by simp), groupGo_skip _ _ _ _ _ (by simp),
          ih rest (by simp only [List.length_cons] at hlen; omega) g cfg v n]
      | toc =>
        rw [groupGo_skip _ _ _ _ _ (by simp), groupGo_skip _ _ _ _ _ (by simp),
          ih rest (by simp only [List.length_cons] at hlen; omega) g cfg v n]
      | group b i h cc =>
        rw [groupGo_skip _ _ _ _ _ (by simp), groupGo_skip _ _ _ _ _ (by simp),
          ih rest (by simp only [List.length_cons] at hlen; omega) g cfg v n]
      | imgWrap b l =>
        rw [groupGo_skip _ _ _ _ _ (by simp), groupGo_skip _ _ _ _ _ (by simp),
          ih rest (by simp only [List.length_cons] at hlen; omega) g cfg v n]

/-- Stage-level form of `groupGo_min_aux`. -/
theorem groupStage_min (g : ℕ → ℚ × ℚ) (cfg : PageBreakConfig) (v : ℚ)
    (doc : List Item) :
    groupStage g { cfg with minRemainingSpace := v } doc = groupStage g cfg doc :=
  groupGo_min_aux (doc.length + 1) doc (Nat.lt_succ_self _) g cfg v 0

/-! Equation-shaped lemmas for `imagesGo`. -/

theorem imagesGo_nil (g : ℕ → ℚ × ℚ) (n : ℕ) : imagesGo g n [] = [] := by
  simp [imagesGo]

theorem imagesGo_node (g : ℕ → ℚ × ℚ) (n : ℕ) (t : Tag) (rest : List Item) :
    imagesGo g n (.node t :: rest) =
      if t = Tag.img then
        .imgWrap (imgDecide (g n).1 (g n).2).1 (imgDecide (g n).1 (g n).2).2
          :: imagesGo g (n + 1) rest
      else
        .node t :: imagesGo g n rest := by
  simp [imagesGo]

theorem imagesGo_group_plain (g : ℕ → ℚ × ℚ) (n : ℕ) (b : Bool) (i : ℕ)
    (h t : Tag) (rest : List Item) :
    imagesGo g n (.group b i h (.plain t) :: rest) =
      if t = Tag.img then
        .group b i h (.wrapped (imgDecide (g n).1 (g n).2).1
            (imgDecide (g n).1 (g n).2).2) :: imagesGo g (n + 1) rest
      else
        .group b i h (.plain t) :: imagesGo g n rest := by
  simp [imagesGo]

theorem imagesGo_skip (g : ℕ → ℚ × ℚ) (n : ℕ) (x : Item) (rest : List Item)
    (hx1 : ∀ t, x ≠ Item.node t)
    (hx2 : ∀ b i h t, x ≠ Item.group b i h (.plain t)) :
    imagesGo g n (x :: rest) = x :: imagesGo g n rest := by
  cases x with
  | node t => exact absurd rfl (hx1 t)
  | brkDiv => simp [imagesGo]
  | toc => simp [imagesGo]
  | group b i h c =>
    cases c with
    | plain t => exact absurd rfl (hx2 b i h t)
    | wrapped w l => simp [imagesGo]
  | imgWrap b l => simp [imagesGo]

/-- The image pass is idempotent: after one run every image sits in an
`image-container`, and the skip guard leaves it untouched on any later
run (no geometry is even queried). -/
theorem imagesGo_idem_aux (g g' : ℕ → ℚ × ℚ) :
    ∀ (doc : List Item) (n m : ℕ),
    imagesGo g' m (imagesGo g n doc) = imagesGo g n doc := by
  intro doc
  induction doc with
  | nil => intro n m; simp [imagesGo]
  | cons x rest ih =>
    intro n m
    cases x with
    | node t =>
      rw [imagesGo_node]
      by_cases ht : t = Tag.img
      · rw [if_pos ht, imagesGo_skip g' m _ _ (by simp) (by simp), ih (n + 1) m]
      · rw [if_neg ht, imagesGo_node, if_neg ht, ih n m]
    | brkDiv =>
      rw [imagesGo_skip g n _ _ (by simp) (by simp),
        imagesGo_skip g' m _ _ (by simp) (by simp), ih n m]
    | toc =>
      rw [imagesGo_skip g n _ _ (by simp) (by simp),
        imagesGo_skip g' m _ _ (by simp) (by simp), ih n m]
    | group b i h c =>
      cases c with
      | plain t =>
        rw [imagesGo_group_plain]
        by_cases ht : t = Tag.img
        · rw [if_pos ht, imagesGo_skip g' m _ _ (by simp) (by simp), ih (n + 1) m]
        · rw [if_neg ht, imagesGo_group_plain, if_neg ht, ih n m]
      | wrapped w l =>
        rw [imagesGo_skip g n _ _ (by simp) (by simp),
          imagesGo_skip g' m _ _ (by simp) (by simp), ih n m]
    | imgWrap b l =>
      rw [imagesGo_skip g n _ _ (by simp) (by simp),
        imagesGo_skip g' m _ _ (by simp) (by simp), ih n m]

/-! `h2Insert` on flat documents coincides with the claim-side rule. -/

theorem h2Insert_node (p : Bool) (k : ℕ) (t : Tag) (rest : List Item) :
    h2Insert p k (.node t :: rest) =
      if t = Tag.h2 then
        (if k = 0 ∨ p then [Item.node t] else [Item.brkDiv, Item.node t])
          ++ h2Insert false (k + 1) rest
      else
        Item.node t :: h2Insert (decide (t = Tag.h1)) k rest := by
  simp [h2Insert]

theorem h2Insert_spec : ∀ (l : List Tag) (p : Bool) (k : ℕ),
    h2Insert p k (l.map Item.node) = h2BlanketSpec p k l := by
  intro l
  induction l with
  | nil => intro p k; simp [h2Insert, h2BlanketSpec]
  | cons t rest ih =>
    intro p k
    rw [List.map_cons, h2Insert_node]
    by_cases ht : t = Tag.h2
    · simp only [h2BlanketSpec, if_pos ht, ih]
    · simp only [h2BlanketSpec, if_neg ht, ih]

/-- An offset already inside the first page cycle is its own page
offset. -/
theorem pageOffsetOf_eq (a : ℚ) (h0 : 0 ≤ a) (h1 : a < usablePageHeight) :
    pageOffsetOf a = a := by
  have hb := usablePageHeight_pos
  rw [pageOffsetOf, jsMod, rtrunc, if_pos (by positivity)]
  have hfl : ⌊a / usablePageHeight⌋ = 0 := by
    rw [Int.floor_eq_zero_iff]
    exact ⟨by positivity, (div_lt_one hb).mpr h1⟩
  rw [hfl]
  push_cast
  ring

/-! ## The claims -/

/-- C1: the smart pagination stage — heading grouping, per-group break
decisions, the first-content-H1 forced break, the blanket H2 forced
breaks, and diagram fit-scaling — executes only when the rendered
document contains at least one Mermaid diagram; a document with zero
Mermaid diagrams goes through the image wrapping/scaling pass only. -/
theorem c1_pagination_gated_on_mermaid (cfg : PageBreakConfig) (b : Bool)
    (gG gI : ℕ → ℚ × ℚ) (doc : List Item) (h : mermaidCount doc = 0) :
    processDoc cfg b gG gI doc = imagesStage gI doc := by
  simp [processDoc, h]

/-- Witness for C1 at a concrete mermaid-free document. -/
theorem c1_witness :
    mermaidCount [Item.node .h1, Item.node .img] = 0 ∧
    processDoc defaultConfig true (fun _ => (0, 0)) (fun _ => (0, 0))
        [Item.node .h1, Item.node .img] =
      imagesStage (fun _ => (0, 0)) [Item.node .h1, Item.node .img] :=
  ⟨by decide, c1_pagination_gated_on_mermaid defaultConfig true _ _ _ (by decide)⟩

/-- C2 counterexample: a group with `height = 2000` and document offset
`100` has rule 1's height condition true with `pageOffset ≤
forceBreakOffset`, rule 2's condition (too large for the remaining
space, overflow beyond tolerance) also holds — yet the engine forces no
break, because the `else if` chain never reaches rule 2. -/
theorem c2_counterexample :
    defaultConfig.largeContentThreshold < 2000 ∧
    pageOffsetOf 100 ≤ defaultConfig.forceBreakOffset ∧
    remainingOf 100 < 2000 ∧
    defaultConfig.overflowTolerance < 2000 - remainingOf 100 ∧
    (decideBreak defaultConfig 2000 100).brk = false := by
  have h1 : pageOffsetOf 100 = 100 :=
    pageOffsetOf_eq 100 (by norm_num) (by norm_num [usablePageHeight, pxPerMm])
  have hA : defaultConfig.largeContentThreshold < 2000 := by norm_num [defaultConfig]
  have hB : ¬ (defaultConfig.forceBreakOffset < pageOffsetOf 100) := by
    rw [h1]; norm_num [defaultConfig]
  refine ⟨hA, by rw [h1]; norm_num [defaultConfig], ?_, ?_, ?_⟩
  · rw [remainingOf, h1]; norm_num [usablePageHeight, pxPerMm]
  · rw [remainingOf, h1]; norm_num [usablePageHeight, pxPerMm, defaultConfig]
  · simp only [decideBreak, if_pos hA]
    simp [hB]

/-- C2 (amended): for every group whose height exceeds
`largeContentThreshold` but whose `pageOffset` is at most
`forceBreakOffset`, rule 1 decides "no break" and — because the rules
form an `else if` chain — rules 2, 3 and 4 are never evaluated: the
group receives no forced break even when a later rule's condition
holds. -/
theorem c2_amended (cfg : PageBreakConfig) (height top : ℚ)
    (h1 : cfg.largeContentThreshold < height)
    (h2 : pageOffsetOf top ≤ cfg.forceBreakOffset) :
    (decideBreak cfg height top).brk = false := by
  simp only [decideBreak, if_pos h1]
  simp [not_lt.mpr h2]

/-- Witness for the amended C2. -/
theorem c2_witness :
    defaultConfig.largeContentThreshold < 2000 ∧
    pageOffsetOf 100 ≤ defaultConfig.forceBreakOffset ∧
    (decideBreak defaultConfig 2000 100).brk = false := by
  have h1 : pageOffsetOf 100 = 100 :=
    pageOffsetOf_eq 100 (by norm_num) (by norm_num [usablePageHeight, pxPerMm])
  have hA : defaultConfig.largeContentThreshold < 2000 := by norm_num [defaultConfig]
  have hB : pageOffsetOf 100 ≤ defaultConfig.forceBreakOffset := by
    rw [h1]; norm_num [defaultConfig]
  exact ⟨hA, hB, c2_amended defaultConfig 2000 100 hA hB⟩

/-- C3 counterexample: with the large-content environment variable set
to the non-numeric string `"abc"`, the constructed configuration value
is `NaN` (`none`), not the documented default `900` — `parseInt`
applies to `"abc"` itself, since a non-empty string is truthy and `||`
never substitutes the default. -/
theorem c3_counterexample :
    (mkPageBreakConfig { emptyEnv with
        pbLargeContent := some "abc" }).largeContentThreshold ≠ some 900 ∧
    (mkPageBreakConfig { emptyEnv with
        pbLargeContent := some "abc" }).largeContentThreshold = none := by
  decide

/-- C3 (amended): the documented default (900 for
`largeContentThreshold`) is substituted only when the environment value
is unset or the empty string; any other value is handed to `parseInt`
directly, whose result for a non-numeric string is `NaN` (`none`) —
construction is a total function and never raises. -/
theorem c3_amended (e : Env) :
    ((e.pbLargeContent = none ∨ e.pbLargeContent = some "") →
      (mkPageBreakConfig e).largeContentThreshold = some 900) ∧
    (∀ s : String, e.pbLargeContent = some s → s ≠ "" →
      (mkPageBreakConfig e).largeContentThreshold = jsParseInt s) := by
  constructor
  · rintro (h | h) <;>
      · show jsParseInt (jsFalsyOr e.pbLargeContent "900") = some 900
        rw [h]
        decide
  · intro s hs hne
    show jsParseInt (jsFalsyOr e.pbLargeContent "900") = jsParseInt s
    rw [hs]
    simp only [jsFalsyOr, if_neg hne]

/-- Witness for the amended C3. -/
theorem c3_witness :
    (mkPageBreakConfig emptyEnv).largeContentThreshold = some 900 ∧
    (mkPageBreakConfig { emptyEnv with
        pbLargeContent := some "12px" }).largeContentThreshold = jsParseInt "12px" :=
  ⟨(c3_amended emptyEnv).1 (Or.inl rfl),
   (c3_amended { emptyEnv with pbLargeContent := some "12px" }).2 "12px" rfl (by decide)⟩

/-- C4: for every group with height greater than
`largeContentThreshold` and `pageOffset` greater than
`forceBreakOffset`, the engine forces a break with reason
`large-content`, regardless of the remaining space and of any later
rule (they are never reached). -/
theorem c4_large_content_priority (cfg : PageBreakConfig) (height top : ℚ)
    (h1 : cfg.largeContentThreshold < height)
    (h2 : cfg.forceBreakOffset < pageOffsetOf top) :
    decideBreak cfg height top = ⟨true, .largeContent⟩ := by
  simp only [decideBreak, if_pos h1]
  simp [h2]

/-- Witness for C4: the spec's own numbers (`height = 1000`,
thresholds at defaults, `pageOffset = 200`). -/
theorem c4_witness :
    defaultConfig.largeContentThreshold < 1000 ∧
    defaultConfig.forceBreakOffset < pageOffsetOf 200 ∧
    decideBreak defaultConfig 1000 200 = ⟨true, .largeContent⟩ := by
  have h1 : pageOffsetOf 200 = 200 :=
    pageOffsetOf_eq 200 (by norm_num) (by norm_num [usablePageHeight, pxPerMm])
  have hA : defaultConfig.largeContentThreshold < 1000 := by norm_num [defaultConfig]
  have hB : defaultConfig.forceBreakOffset < pageOffsetOf 200 := by
    rw [h1]; norm_num [defaultConfig]
  exact ⟨hA, hB, c4_large_content_priority defaultConfig 1000 200 hA hB⟩

/-- C5 counterexample: a zero-height group near the bottom of a page
(document offset 1100, remaining space ≈ 22.5px < `headingMinSpace` =
80) IS forced onto a new page by rule 3, which reads only the position,
never the height — refuting "zero height never triggers any of the four
break rules". -/
theorem c5_counterexample :
    decideBreak defaultConfig 0 1100 = ⟨true, .headingAtBottom⟩ := by
  have h1 : pageOffsetOf 1100 = 1100 :=
    pageOffsetOf_eq 1100 (by norm_num) (by norm_num [usablePageHeight, pxPerMm])
  simp only [decideBreak, defaultConfig, remainingOf, h1]
  norm_num [usablePageHeight, pxPerMm]

/-- C5 (amended): a missing/zero height never triggers rules 1 (for any
non-negative `largeContentThreshold`), 2 or 4; but rule 3
(heading-near-bottom) depends only on the remaining space, so a
zero-height group is still forced to break exactly when
`remainingSpace < headingMinSpace`, with that reason. -/
theorem c5_amended (cfg : PageBreakConfig) (top : ℚ)
    (hcfg : 0 ≤ cfg.largeContentThreshold) :
    decideBreak cfg 0 top =
      if remainingOf top < cfg.headingMinSpace then ⟨true, .headingAtBottom⟩
      else ⟨false, .noReason⟩ := by
  have hrem := remainingOf_pos top
  simp only [decideBreak]
  rw [if_neg (not_lt.mpr hcfg), if_neg (by linarith : ¬ remainingOf top < 0)]
  by_cases h3 : remainingOf top < cfg.headingMinSpace
  · rw [if_pos h3, if_pos h3]
  · rw [if_neg h3, if_neg h3,
      if_neg (fun hc => absurd hc.1 (by norm_num))]

/-- Witness for the amended C5. -/
theorem c5_witness :
    0 ≤ defaultConfig.largeContentThreshold ∧
    decideBreak defaultConfig 0 1100 =
      (if remainingOf 1100 < defaultConfig.headingMinSpace then
        (⟨true, .headingAtBottom⟩ : Decision)
      else ⟨false, .noReason⟩) :=
  ⟨by norm_num [defaultConfig],
   c5_amended defaultConfig 1100 (by norm_num [defaultConfig])⟩

/-- C6: with the blanket-H2-break option enabled, every `h2` receives a
forced page break before it except the first `h2` and except one whose
immediately preceding element is an `h1` (proved as the equivalence of
the pass with the claim-side rule `h2BlanketSpec` on flat documents);
in particular on headings `[H1, H2, H2, H2]` exactly the 2nd and 3rd
`h2` receive the marker. -/
theorem c6_h2_blanket_rule :
    (∀ l : List Tag, h2Stage true (l.map Item.node) = h2BlanketSpec false 0 l) ∧
    h2Stage true [Item.node .h1, Item.node .h2, Item.node .h2, Item.node .h2] =
      [Item.node .h1, Item.node .h2, Item.brkDiv, Item.node .h2,
        Item.brkDiv, Item.node .h2] := by
  refine ⟨fun l => ?_, by decide⟩
  show h2Insert false 0 (l.map Item.node) = h2BlanketSpec false 0 l
  exact h2Insert_spec l false 0

/-- C7: the Heading-Grouping Pass is idempotent — a second run, with
any geometry oracle and any configuration, over an already-grouped
document is a no-op, so it creates zero additional groups and zero
additional break markers. -/
theorem c7_grouping_idempotent (g g' : ℕ → ℚ × ℚ)
    (cfg cfg' : PageBreakConfig) (doc : List Item) :
    groupStage g' cfg' (groupStage g cfg doc) = groupStage g cfg doc :=
  groupGo_idem_aux (doc.length + 1) doc (Nat.lt_succ_self _) g g' cfg cfg' 0 0

/-- C8 counterexample: the blanket H2 break pass checks no existing
marker — re-running it on `[H1, H2, H2]` inserts a second
`h2-page-break` before the last `h2` (whose previous sibling is now the
first run's marker div, not an `h1`), duplicating the marker. -/
theorem c8_counterexample :
    h2Stage true (h2Stage true [Item.node .h1, Item.node .h2, Item.node .h2]) ≠
      h2Stage true [Item.node .h1, Item.node .h2, Item.node .h2] := by
  decide

/-- C8 (amended): the image wrapping/marking pass is idempotent — its
guard skips any image already inside an `image-container`, so a re-run
adds no duplicate wrapper or marker — but the blanket H2 break pass has
no such guard and does duplicate its marker on a re-run. -/
theorem c8_amended_wrap_idempotent (g g' : ℕ → ℚ × ℚ) (doc : List Item) :
    imagesStage g' (imagesStage g doc) = imagesStage g doc :=
  imagesGo_idem_aux g g' doc 0 0

/-- C9: for natural dimensions both positive the fit scale
`min(maxW/w, maxH/h, 1)` lies in `(0, 1]`; at scale 1 the diagram is
left untouched, and below 1 both dimensions are multiplied by the same
factor (aspect ratio preserved). -/
theorem c9_fit_scaler (w h : ℚ) (d : Option (ℚ × ℚ))
    (hw : 0 < w) (hh : 0 < h) :
    0 < fitScale w h ∧ fitScale w h ≤ 1 ∧
    (fitScale w h = 1 → scaleTag (.mermaid w h d) = .mermaid w h d) ∧
    (fitScale w h < 1 →
      scaleTag (.mermaid w h d) =
        .mermaid w h (some (w * fitScale w h, h * fitScale w h))) := by
  have hW : (0 : ℚ) < maxWidthPx := by norm_num [maxWidthPx, pxPerMm]
  have hH : (0 : ℚ) < maxHeightPx := by norm_num [maxHeightPx, pxPerMm]
  refine ⟨?_, ?_, ?_, ?_⟩
  · simp only [fitScale]
    exact lt_min (lt_min (div_pos hW hw) (div_pos hH hh)) one_pos
  · simp only [fitScale]
    exact min_le_right _ _
  · intro h1
    simp [scaleTag, h1]
  · intro h1
    simp [scaleTag, h1]

/-- Witness for C9 at a 600×300 diagram (fits the page, scale 1). -/
theorem c9_witness :
    (0 : ℚ) < 600 ∧ (0 : ℚ) < 300 ∧
    (0 < fitScale 600 300 ∧ fitScale 600 300 ≤ 1 ∧
     (fitScale 600 300 = 1 →
       scaleTag (.mermaid 600 300 none) = .mermaid 600 300 none) ∧
     (fitScale 600 300 < 1 →
       scaleTag (.mermaid 600 300 none) =
         .mermaid 600 300 (some (600 * fitScale 600 300, 300 * fitScale 600 300)))) :=
  ⟨by norm_num, by norm_num, c9_fit_scaler 600 300 none (by norm_num) (by norm_num)⟩

/-- C10: `minRemainingSpace` has no effect — two runs of the whole
DOM-mutation pipeline that differ only in that setting produce
identical groups, break decisions and markers, because no rule ever
consults the value. -/
theorem c10_minRemaining_no_effect (cfg : PageBreakConfig) (v : ℚ) (b : Bool)
    (gG gI : ℕ → ℚ × ℚ) (doc : List Item) :
    processDoc { cfg with minRemainingSpace := v } b gG gI doc =
      processDoc cfg b gG gI doc := by
  simp only [processDoc, groupStage_min]
